import Mathlib

/-!
Verification of the orchestration layer of `ingestr` (src/ingestr/main.py).

The `ingest` command's resolution phase — everything computed before the
transfer engine (`pipeline.run`) is invoked — is a pure function of the CLI
arguments: destination-table defaulting (lines 78–83), the delete+insert
strategy rewrite (lines 85–88), the SHA-256 pipeline-name derivation
(lines 94–98), and the assembly of the arguments handed to `pipeline.run`
(lines 129–144).  We embed that phase as `ingestResolve` below and prove
the spec's claims about it.

The result type is `Except ResolutionError EngineCall`: `ResolutionError`
is the spec's resolution-stage error taxonomy (§7), so that the spec's
error-handling claims are statable; the code itself performs none of those
validations, so the translation always returns `Except.ok`.
-/

namespace Ingestr

/-- A parsed timestamp, as accepted by the CLI's DATE_FORMATS (line 23–30):
calendar date with optional time and optional fractional seconds.  The code
never inspects timestamps — it forwards them to the source unchanged — so
only their ordering matters here. -/
structure DateTime where
  year : Nat
  month : Nat
  day : Nat
  hour : Nat := 0
  minute : Nat := 0
  second : Nat := 0
  fraction : Nat := 0
deriving DecidableEq, Repr

/-- Lexicographic comparison of equal-length Nat lists. -/
def listLtNat : List Nat → List Nat → Bool
  | [], _ => false
  | _ :: _, [] => false
  | a :: as, b :: bs => a < b || (a == b && listLtNat as bs)

/-- The field tuple of a timestamp, most significant first. -/
def DateTime.key (t : DateTime) : List Nat :=
  [t.year, t.month, t.day, t.hour, t.minute, t.second, t.fraction]

/-- `a` is strictly earlier than `b`. -/
def DateTime.earlier (a b : DateTime) : Bool :=
  listLtNat a.key b.key

/-! ### UTF-8 encoding (`dest_table.encode("utf-8")`, line 95) -/

/-- UTF-8 encoding of a single Unicode scalar value, as a list of bytes. -/
def utf8EncodeChar (c : Char) : List Nat :=
  let n := c.toNat
  if n < 0x80 then [n]
  else if n < 0x800 then [0xC0 + n / 64, 0x80 + n % 64]
  else if n < 0x10000 then
    [0xE0 + n / 4096, 0x80 + n / 64 % 64, 0x80 + n % 64]
  else
    [0xF0 + n / 262144, 0x80 + n / 4096 % 64, 0x80 + n / 64 % 64, 0x80 + n % 64]

/-- UTF-8 encoding of a string, as a list of bytes. -/
def utf8Encode (s : String) : List Nat :=
  (s.data.map utf8EncodeChar).flatten

/-! ### SHA-256 (`hashlib.sha256`, lines 94–98) -/

/-- Truncate to a 32-bit word. -/
def w32 (n : Nat) : Nat := n % 2 ^ 32

/-- Right-rotation of a 32-bit word by `n` positions. -/
def rotr32 (n x : Nat) : Nat := x / 2 ^ n + x % 2 ^ n * 2 ^ (32 - n)

/-- Right-shift of a word by `n` positions. -/
def shr32 (n x : Nat) : Nat := x / 2 ^ n

/-- SHA-256 small sigma 0. -/
def sigmaSmall0 (x : Nat) : Nat := rotr32 7 x ^^^ rotr32 18 x ^^^ shr32 3 x

/-- SHA-256 small sigma 1. -/
def sigmaSmall1 (x : Nat) : Nat := rotr32 17 x ^^^ rotr32 19 x ^^^ shr32 10 x

/-- SHA-256 big sigma 0. -/
def sigmaBig0 (x : Nat) : Nat := rotr32 2 x ^^^ rotr32 13 x ^^^ rotr32 22 x

/-- SHA-256 big sigma 1. -/
def sigmaBig1 (x : Nat) : Nat := rotr32 6 x ^^^ rotr32 11 x ^^^ rotr32 25 x

/-- SHA-256 choice function; `x ^^^ 0xffffffff` is 32-bit complement. -/
def ch32 (x y z : Nat) : Nat := (x &&& y) ^^^ ((x ^^^ 0xffffffff) &&& z)

/-- SHA-256 majority function. -/
def maj32 (x y z : Nat) : Nat := (x &&& y) ^^^ (x &&& z) ^^^ (y &&& z)

/-- The eight 32-bit words of the SHA-256 state. -/
structure Hash256 where
  a : Nat
  b : Nat
  c : Nat
  d : Nat
  e : Nat
  f : Nat
  g : Nat
  h : Nat
deriving DecidableEq, Repr

/-- SHA-256 initial hash value (FIPS 180-4, written in decimal). -/
def sha256Init : Hash256 :=
  ⟨1779033703, 3144134277, 1013904242, 2773480762,
   1359893119, 2600822924, 528734635, 1541459225⟩

/-- SHA-256 round constants (FIPS 180-4, written in decimal). -/
def sha256K : List Nat :=
  [1116352408, 1899447441, 3049323471, 3921009573, 961987163, 1508970993,
   2453635748, 2870763221, 3624381080, 310598401, 607225278, 1426881987,
   1925078388, 2162078206, 2614888103, 3248222580, 3835390401, 4022224774,
   264347078, 604807628, 770255983, 1249150122, 1555081692, 1996064986,
   2554220882, 2821834349, 2952996808, 3210313671, 3336571891, 3584528711,
   113926993, 338241895, 666307205, 773529912, 1294757372, 1396182291,
   1695183700, 1986661051, 2177026350, 2456956037, 2730485921, 2820302411,
   3259730800, 3345764771, 3516065817, 3600352804, 4094571909, 275423344,
   430227734, 506948616, 659060556, 883997877, 958139571, 1322822218,
   1537002063, 1747873779, 1955562222, 2024104815, 2227730452, 2361852424,
   2428436474, 2756734187, 3204031479, 3329325298]

/-- Pad a byte message per SHA-256: append 0x80, zeros to 56 mod 64, and the
bit length as 8 big-endian bytes. -/
def sha256Pad (msg : List Nat) : List Nat :=
  let ml := 8 * msg.length
  let k := (119 - msg.length % 64) % 64
  msg ++ [0x80] ++ List.replicate k 0 ++
    [ml / 2 ^ 56 % 256, ml / 2 ^ 48 % 256, ml / 2 ^ 40 % 256, ml / 2 ^ 32 % 256,
     ml / 2 ^ 24 % 256, ml / 2 ^ 16 % 256, ml / 2 ^ 8 % 256, ml % 256]

/-- Group bytes into 32-bit big-endian words. -/
def bytesToWords : List Nat → List Nat
  | b0 :: b1 :: b2 :: b3 :: rest =>
    (b0 * 2 ^ 24 + b1 * 2 ^ 16 + b2 * 2 ^ 8 + b3) :: bytesToWords rest
  | _ => []

/-- Split a byte list into 64-byte chunks; `fuel` bounds the recursion depth
(one unit per chunk suffices, and `chunks64` passes the list length). -/
def chunks64Go : Nat → List Nat → List (List Nat)
  | 0, _ => []
  | _ + 1, [] => []
  | fuel + 1, x :: rest => ((x :: rest).take 64) :: chunks64Go fuel ((x :: rest).drop 64)

/-- Split a byte list into 64-byte chunks. -/
def chunks64 (l : List Nat) : List (List Nat) :=
  chunks64Go l.length l

/-- Extend the message schedule by `k` more words; `ws` holds the schedule so
far, most recent word first. -/
def scheduleRec : Nat → List Nat → List Nat
  | 0, ws => ws
  | k + 1, ws =>
    let next :=
      w32 (ws.getD 15 0 + sigmaSmall0 (ws.getD 14 0) + ws.getD 6 0 + sigmaSmall1 (ws.getD 1 0))
    scheduleRec k (next :: ws)

/-- The 64-word message schedule of a 16-word chunk. -/
def sha256Schedule (chunkWords : List Nat) : List Nat :=
  (scheduleRec 48 chunkWords.reverse).reverse

/-- One SHA-256 compression round, given a (round constant, schedule word)
pair. -/
def sha256Round (st : Hash256) (kw : Nat × Nat) : Hash256 :=
  let t1 := w32 (st.h + sigmaBig1 st.e + ch32 st.e st.f st.g + kw.1 + kw.2)
  let t2 := w32 (sigmaBig0 st.a + maj32 st.a st.b st.c)
  ⟨w32 (t1 + t2), st.a, st.b, st.c, w32 (st.d + t1), st.e, st.f, st.g⟩

/-- Compress one 64-byte chunk into the running hash state. -/
def sha256Compress (st : Hash256) (chunk : List Nat) : Hash256 :=
  let ws := sha256Schedule (bytesToWords chunk)
  let r := (sha256K.zip ws).foldl sha256Round st
  ⟨w32 (st.a + r.a), w32 (st.b + r.b), w32 (st.c + r.c), w32 (st.d + r.d),
   w32 (st.e + r.e), w32 (st.f + r.f), w32 (st.g + r.g), w32 (st.h + r.h)⟩

/-- The lowercase hex digit for `n < 16`. -/
def hexDigit (n : Nat) : Char :=
  if n < 10 then Char.ofNat (48 + n) else Char.ofNat (87 + n)

/-- The `k` lowercase hex digits of `n`, zero-padded, most significant
first. -/
def hexFixed : Nat → Nat → List Char
  | 0, _ => []
  | k + 1, n => hexFixed k (n / 16) ++ [hexDigit (n % 16)]

/-- The 64-character lowercase hex rendering of a hash state, as produced by
`hexdigest()`. -/
def hashHex (st : Hash256) : String :=
  String.mk (hexFixed 8 st.a ++ hexFixed 8 st.b ++ hexFixed 8 st.c ++
    hexFixed 8 st.d ++ hexFixed 8 st.e ++ hexFixed 8 st.f ++
    hexFixed 8 st.g ++ hexFixed 8 st.h)

/-- SHA-256 hex digest of a byte message. -/
def sha256hex (msg : List Nat) : String :=
  hashHex ((chunks64 (sha256Pad msg)).foldl sha256Compress sha256Init)

/-- The pipeline identity (lines 94–98): `hashlib.sha256` of the UTF-8
encoded destination table name, rendered with `hexdigest()`. -/
def pipelineName (destTable : String) : String :=
  sha256hex (utf8Encode destTable)

/-! ### The `ingest` command's resolution phase -/

/-- Line 61: the default value of the `incremental_strategy` option. -/
def defaultIncrementalStrategy : String := "replace"

/-- The arguments of the `ingest` command (lines 34–77), with the same
defaults typer applies: `dest_table`, `incremental_key`, the interval bounds
and `primary_key` default to `None`, and `incremental_strategy` defaults to
`"replace"` (line 61, `defaultIncrementalStrategy`). -/
structure IngestArgs where
  sourceUri : String
  destUri : String
  sourceTable : String
  destTable : Option String := none
  incrementalKey : Option String := none
  incrementalStrategy : String := defaultIncrementalStrategy
  intervalStart : Option DateTime := none
  intervalEnd : Option DateTime := none
  primaryKey : Option (List String) := none
deriving DecidableEq, Repr

/-- The spec's resolution-stage error taxonomy (§7).  The code in
src/ingestr/main.py performs none of these validations, so `ingestResolve`
never produces one; the type exists so the spec's error-handling claims can
be stated against the code. -/
inductive ResolutionError where
  | MalformedURI
  | UnknownScheme
  | UnsupportedRole
  | UnsupportedStrategy
  | MissingMergeKey
  | InvalidInterval
  | DanglingIntervalBound
deriving DecidableEq, Repr

/-- The arguments the code hands to the transfer engine: `pipeline_name`
(line 98) and the `pipeline.run` call (lines 129–144), whose source is built
with `table`, `incremental_key`, `merge_key` and the interval bounds. -/
structure EngineCall where
  pipelineName : String
  sourceTable : String
  destTable : String
  incrementalKey : Option String
  mergeKey : Option String
  intervalStart : Option DateTime
  intervalEnd : Option DateTime
  writeDisposition : String
  primaryKey : Option (List String)
deriving DecidableEq, Repr

/-- Lines 78–83: `if not dest_table: dest_table = source_table`.  Python's
`not` is true on both `None` and the empty string. -/
def resolveDestTable (destTable : Option String) (sourceTable : String) : String :=
  match destTable with
  | none => sourceTable
  | some t => if t = "" then sourceTable else t

/-- Lines 85–88: `merge_key = None`; if the strategy is `"delete+insert"`,
set `merge_key = incremental_key` and rewrite the strategy to `"merge"`.
Returns the (write disposition, merge key) pair; every other strategy string
passes through verbatim with no merge key. -/
def resolveStrategy (strategy : String) (incrementalKey : Option String) :
    String × Option String :=
  if strategy = "delete+insert" then ("merge", incrementalKey)
  else (strategy, none)

/-- Line 143: `primary_key if primary_key and len(primary_key) > 0 else
None`.  `None` and the empty list are both falsy, so both become `None`. -/
def normalizePrimaryKey (pk : Option (List String)) : Option (List String) :=
  match pk with
  | none => none
  | some l => if l.length > 0 then some l else none

/-- The resolution phase of `ingest` (lines 78–105 and the argument list of
`pipeline.run`, lines 129–144), as a pure function from the CLI arguments to
the transfer-engine invocation.  The code contains no validation between
argument parsing and `pipeline.run`, so the result is always `Except.ok`. -/
def ingestResolve (args : IngestArgs) : Except ResolutionError EngineCall :=
  let destTable := resolveDestTable args.destTable args.sourceTable
  let resolved := resolveStrategy args.incrementalStrategy args.incrementalKey
  Except.ok
    { pipelineName := pipelineName destTable
      sourceTable := args.sourceTable
      destTable := destTable
      incrementalKey := args.incrementalKey
      mergeKey := resolved.2
      intervalStart := args.intervalStart
      intervalEnd := args.intervalEnd
      writeDisposition := resolved.1
      primaryKey := normalizePrimaryKey args.primaryKey }

/-- True when resolution produced a transfer-engine invocation rather than a
resolution-stage error. -/
def reachesEngine (r : Except ResolutionError EngineCall) : Bool :=
  match r with
  | Except.ok _ => true
  | Except.error _ => false

/-! ### Concrete invocations used as test inputs -/

/-- The spec's end-to-end scenario: postgres source, duckdb destination,
source table "orders", everything else left at its default. -/
def exampleArgs : IngestArgs :=
  { sourceUri := "postgres://u:p@h/db"
    destUri := "duckdb://path/db"
    sourceTable := "orders" }

/-- The delete+insert scenario with incremental key "id". -/
def deleteInsertArgs : IngestArgs :=
  { exampleArgs with incrementalStrategy := "delete+insert", incrementalKey := some "id" }

/-- Strategy "merge" with no merge key and no primary key. -/
def mergeNoKeysArgs : IngestArgs :=
  { exampleArgs with incrementalStrategy := "merge" }

/-- A timestamp one day before `dtLate`. -/
def dtEarly : DateTime := { year := 2024, month := 1, day := 1 }

/-- A timestamp one day after `dtEarly`. -/
def dtLate : DateTime := { year := 2024, month := 1, day := 2 }

/-- An invocation whose interval_end is strictly earlier than its
interval_start. -/
def reversedIntervalArgs : IngestArgs :=
  { exampleArgs with
      incrementalKey := some "updated_at"
      intervalStart := some dtLate
      intervalEnd := some dtEarly }

/-- Interval bounds supplied with no incremental key. -/
def danglingBoundsArgs : IngestArgs :=
  { exampleArgs with intervalStart := some dtEarly, intervalEnd := some dtLate }

/-- A strategy string outside the documented set
{replace, append, delete+insert, merge}. -/
def unknownStrategyArgs : IngestArgs :=
  { exampleArgs with incrementalStrategy := "upsert" }

/-- Strategy "merge" with a two-column primary key. -/
def multiPrimaryKeyArgs : IngestArgs :=
  { exampleArgs with incrementalStrategy := "merge", primaryKey := some ["id", "region"] }

/-! ### Helper lemmas -/

/-- `hexFixed k` always renders exactly `k` characters. -/
theorem hexFixed_length (k : Nat) : ∀ n, (hexFixed k n).length = k := by
  induction k with
  | zero => intro n; rfl
  | succ k ih => intro n; simp [hexFixed, ih]

/-- The hex rendering of any hash state has exactly 64 characters. -/
theorem hashHex_length (st : Hash256) : (hashHex st).length = 64 := by
  simp [hashHex, String.length, hexFixed_length]

/-! ### The claims -/

/-- C1: for every invocation with strategy "delete+insert" and any
incremental key k, the resolved plan has write_disposition "merge" and merge
key k (lines 85–88 of src/ingestr/main.py). -/
theorem deleteInsert_rewrites_to_merge (args : IngestArgs)
    (h : args.incrementalStrategy = "delete+insert") :
    (ingestResolve args).map EngineCall.writeDisposition = Except.ok "merge" ∧
    (ingestResolve args).map EngineCall.mergeKey = Except.ok args.incrementalKey := by
  simp [ingestResolve, resolveStrategy, Except.map, h]

/-- C1 witness: the spec's end-to-end scenario with incremental key "id". -/
theorem deleteInsert_rewrites_to_merge_w :
    (ingestResolve deleteInsertArgs).map EngineCall.writeDisposition = Except.ok "merge" ∧
    (ingestResolve deleteInsertArgs).map EngineCall.mergeKey = Except.ok (some "id") :=
  deleteInsert_rewrites_to_merge deleteInsertArgs rfl

/-- C2 counterexample: strategy "merge" with no merge key and no primary key
does not fail with MissingMergeKey; resolution reaches the transfer engine
with write_disposition "merge" and both keys absent. -/
theorem merge_without_keys_cex :
    ingestResolve mergeNoKeysArgs ≠ Except.error ResolutionError.MissingMergeKey ∧
    reachesEngine (ingestResolve mergeNoKeysArgs) = true ∧
    (ingestResolve mergeNoKeysArgs).map EngineCall.writeDisposition = Except.ok "merge" ∧
    (ingestResolve mergeNoKeysArgs).map EngineCall.mergeKey = Except.ok none ∧
    (ingestResolve mergeNoKeysArgs).map EngineCall.primaryKey = Except.ok none :=
  ⟨fun h => Except.noConfusion h, rfl, rfl, rfl, rfl⟩

/-- C2 amended: when the resolved write disposition is "merge" with an
absent effective merge key and an empty/absent primary key, resolution does
not fail; the plan reaches the transfer engine with write_disposition
"merge" and both keys absent (the code has no MissingMergeKey check). -/
theorem merge_without_keys_forwarded (args : IngestArgs)
    (hres : resolveStrategy args.incrementalStrategy args.incrementalKey = ("merge", none))
    (hpk : normalizePrimaryKey args.primaryKey = none) :
    reachesEngine (ingestResolve args) = true ∧
    (ingestResolve args).map EngineCall.writeDisposition = Except.ok "merge" ∧
    (ingestResolve args).map EngineCall.mergeKey = Except.ok none ∧
    (ingestResolve args).map EngineCall.primaryKey = Except.ok none := by
  simp [ingestResolve, reachesEngine, Except.map, hres, hpk]

/-- C2 amended witness: the merge-with-no-keys invocation. -/
theorem merge_without_keys_forwarded_w :
    reachesEngine (ingestResolve mergeNoKeysArgs) = true ∧
    (ingestResolve mergeNoKeysArgs).map EngineCall.writeDisposition = Except.ok "merge" ∧
    (ingestResolve mergeNoKeysArgs).map EngineCall.mergeKey = Except.ok none ∧
    (ingestResolve mergeNoKeysArgs).map EngineCall.primaryKey = Except.ok none :=
  merge_without_keys_forwarded mergeNoKeysArgs rfl rfl

/-- C3 counterexample: interval_end strictly earlier than interval_start
does not fail with InvalidInterval; both bounds reach the transfer engine
unchanged. -/
theorem reversed_interval_cex :
    DateTime.earlier dtEarly dtLate = true ∧
    ingestResolve reversedIntervalArgs ≠ Except.error ResolutionError.InvalidInterval ∧
    reachesEngine (ingestResolve reversedIntervalArgs) = true ∧
    (ingestResolve reversedIntervalArgs).map EngineCall.intervalStart = Except.ok (some dtLate) ∧
    (ingestResolve reversedIntervalArgs).map EngineCall.intervalEnd = Except.ok (some dtEarly) :=
  ⟨rfl, fun h => Except.noConfusion h, rfl, rfl, rfl⟩

/-- C3 amended: for any invocation with interval_end strictly earlier than
interval_start, resolution does not fail; both bounds are forwarded to the
transfer engine unchanged (the code has no InvalidInterval check). -/
theorem reversed_interval_forwarded (args : IngestArgs) (s e : DateTime)
    (hs : args.intervalStart = some s) (he : args.intervalEnd = some e)
    (hlt : DateTime.earlier e s = true) :
    reachesEngine (ingestResolve args) = true ∧
    (ingestResolve args).map EngineCall.intervalStart = Except.ok (some s) ∧
    (ingestResolve args).map EngineCall.intervalEnd = Except.ok (some e) := by
  simp [ingestResolve, reachesEngine, Except.map, hs, he]

/-- C3 amended witness: the reversed-interval invocation. -/
theorem reversed_interval_forwarded_w :
    reachesEngine (ingestResolve reversedIntervalArgs) = true ∧
    (ingestResolve reversedIntervalArgs).map EngineCall.intervalStart = Except.ok (some dtLate) ∧
    (ingestResolve reversedIntervalArgs).map EngineCall.intervalEnd = Except.ok (some dtEarly) :=
  reversed_interval_forwarded reversedIntervalArgs dtLate dtEarly rfl rfl (by decide)

/-- C4 counterexample: interval bounds with no incremental key do not fail
with DanglingIntervalBound; the bounds reach the transfer engine. -/
theorem dangling_bounds_cex :
    danglingBoundsArgs.incrementalKey = none ∧
    ingestResolve danglingBoundsArgs ≠ Except.error ResolutionError.DanglingIntervalBound ∧
    reachesEngine (ingestResolve danglingBoundsArgs) = true ∧
    (ingestResolve danglingBoundsArgs).map EngineCall.intervalStart = Except.ok (some dtEarly) ∧
    (ingestResolve danglingBoundsArgs).map EngineCall.intervalEnd = Except.ok (some dtLate) :=
  ⟨rfl, fun h => Except.noConfusion h, rfl, rfl, rfl⟩

/-- C4 amended: for any invocation with an absent incremental key and at
least one interval bound supplied, resolution does not fail; the bounds are
forwarded to the transfer engine unchanged with no incremental key (the code
has no DanglingIntervalBound check). -/
theorem dangling_bounds_forwarded (args : IngestArgs)
    (hik : args.incrementalKey = none)
    (hbound : args.intervalStart ≠ none ∨ args.intervalEnd ≠ none) :
    reachesEngine (ingestResolve args) = true ∧
    (ingestResolve args).map EngineCall.incrementalKey = Except.ok none ∧
    (ingestResolve args).map EngineCall.intervalStart = Except.ok args.intervalStart ∧
    (ingestResolve args).map EngineCall.intervalEnd = Except.ok args.intervalEnd := by
  simp [ingestResolve, reachesEngine, Except.map, hik]

/-- C4 amended witness: the dangling-bounds invocation. -/
theorem dangling_bounds_forwarded_w :
    reachesEngine (ingestResolve danglingBoundsArgs) = true ∧
    (ingestResolve danglingBoundsArgs).map EngineCall.incrementalKey = Except.ok none ∧
    (ingestResolve danglingBoundsArgs).map EngineCall.intervalStart =
      Except.ok danglingBoundsArgs.intervalStart ∧
    (ingestResolve danglingBoundsArgs).map EngineCall.intervalEnd =
      Except.ok danglingBoundsArgs.intervalEnd :=
  dangling_bounds_forwarded danglingBoundsArgs rfl (Or.inl (by decide))

/-- C5: an unknown strategy string ("upsert") is not rejected with
UnsupportedStrategy; it is forwarded verbatim as the write disposition to
the transfer engine, although the option's own help text (line 59) says the
strategy "must be one of 'replace', 'append', 'delete+insert', or
'merge'". -/
theorem unknown_strategy_forwarded :
    ingestResolve unknownStrategyArgs ≠ Except.error ResolutionError.UnsupportedStrategy ∧
    reachesEngine (ingestResolve unknownStrategyArgs) = true ∧
    (ingestResolve unknownStrategyArgs).map EngineCall.writeDisposition = Except.ok "upsert" :=
  ⟨fun h => Except.noConfusion h, rfl, rfl⟩

set_option maxRecDepth 40000 in
/-- C6: the pipeline identity is a pure deterministic function of the
destination table name — equal names give equal digests — and the digest
always has the fixed length 64 (SHA-256 hex); distinct names give distinct
digests on the spec's example tables. -/
theorem pipelineName_deterministic (s t : String) (h : s = t) :
    pipelineName s = pipelineName t ∧
    (pipelineName s).length = 64 ∧
    pipelineName "orders" ≠ pipelineName "users" :=
  ⟨congrArg pipelineName h, hashHex_length _, by decide⟩

/-- C6 witness: the destination table of the spec's scenario. -/
theorem pipelineName_deterministic_w :
    pipelineName "orders" = pipelineName "orders" ∧
    (pipelineName "orders").length = 64 ∧
    pipelineName "orders" ≠ pipelineName "users" :=
  pipelineName_deterministic "orders" "orders" rfl

/-- C7: with no destination table given, the run uses the source table as
destination table; with the default strategy ("replace", line 61) and no
incremental key, the plan has write_disposition "replace" and no incremental
or merge key. -/
theorem defaults_resolve (args : IngestArgs)
    (hdt : args.destTable = none)
    (hst : args.incrementalStrategy = defaultIncrementalStrategy)
    (hik : args.incrementalKey = none) :
    (ingestResolve args).map EngineCall.destTable = Except.ok args.sourceTable ∧
    (ingestResolve args).map EngineCall.writeDisposition = Except.ok "replace" ∧
    (ingestResolve args).map EngineCall.incrementalKey = Except.ok none ∧
    (ingestResolve args).map EngineCall.mergeKey = Except.ok none := by
  simp [ingestResolve, resolveDestTable, resolveStrategy, defaultIncrementalStrategy,
    Except.map, hdt, hst, hik]

/-- C7 witness: the spec's end-to-end scenario (postgres to duckdb, source
table "orders", all defaults). -/
theorem defaults_resolve_w :
    (ingestResolve exampleArgs).map EngineCall.destTable = Except.ok exampleArgs.sourceTable ∧
    (ingestResolve exampleArgs).map EngineCall.writeDisposition = Except.ok "replace" ∧
    (ingestResolve exampleArgs).map EngineCall.incrementalKey = Except.ok none ∧
    (ingestResolve exampleArgs).map EngineCall.mergeKey = Except.ok none :=
  defaults_resolve exampleArgs rfl rfl rfl

/-- C8: an empty primary-key list is normalized to absent, exactly like an
unset primary key, and a non-empty list is passed to the transfer engine
unchanged (line 143). -/
theorem primaryKey_normalized (args argsU : IngestArgs) (l : List String)
    (hl : l ≠ [])
    (hempty : args.primaryKey = none ∨ args.primaryKey = some [])
    (hsome : argsU.primaryKey = some l) :
    (ingestResolve args).map EngineCall.primaryKey = Except.ok none ∧
    (ingestResolve argsU).map EngineCall.primaryKey = Except.ok (some l) := by
  constructor
  · rcases hempty with h | h <;> simp [ingestResolve, normalizePrimaryKey, Except.map, h]
  · cases l with
    | nil => exact absurd rfl hl
    | cons a as => simp [ingestResolve, normalizePrimaryKey, Except.map, hsome]

/-- C8 witness: unset primary key, and the two-column key of the spec's
merge scenario. -/
theorem primaryKey_normalized_w :
    (ingestResolve exampleArgs).map EngineCall.primaryKey = Except.ok none ∧
    (ingestResolve multiPrimaryKeyArgs).map EngineCall.primaryKey =
      Except.ok (some ["id", "region"]) :=
  primaryKey_normalized exampleArgs multiPrimaryKeyArgs ["id", "region"]
    (by decide) (Or.inl rfl) rfl

/-- C9 counterexample: resolution is not idempotent on full plans — feeding
the write disposition resolved from ("delete+insert", incremental key "id")
back into the resolver with the same keys loses the merge key. -/
theorem resolveStrategy_not_idempotent_cex :
    resolveStrategy (resolveStrategy "delete+insert" (some "id")).1 (some "id") ≠
      resolveStrategy "delete+insert" (some "id") := by
  decide

/-- C9 amended: for every valid strategy name, re-resolving the resolved
write disposition with the same keys preserves the write disposition (the
outputs replace, append and merge are fixed points of the first component),
and yields the identical pair except for "delete+insert", whose
re-resolution is ("merge", none) — so the merge key is lost whenever the
incremental key was present. -/
theorem resolveStrategy_reresolution (s : String) (ik : Option String)
    (hvalid : s = "replace" ∨ s = "append" ∨ s = "delete+insert" ∨ s = "merge") :
    (resolveStrategy (resolveStrategy s ik).1 ik).1 = (resolveStrategy s ik).1 ∧
    resolveStrategy (resolveStrategy s ik).1 ik =
      (if s = "delete+insert" then ("merge", none) else resolveStrategy s ik) := by
  rcases hvalid with h | h | h | h <;> subst h <;> exact ⟨rfl, rfl⟩

/-- C9 amended witness: the delete+insert case with incremental key "id". -/
theorem resolveStrategy_reresolution_w :
    (resolveStrategy (resolveStrategy "delete+insert" (some "id")).1 (some "id")).1 =
      (resolveStrategy "delete+insert" (some "id")).1 ∧
    resolveStrategy (resolveStrategy "delete+insert" (some "id")).1 (some "id") =
      (if "delete+insert" = "delete+insert" then ("merge", none)
       else resolveStrategy "delete+insert" (some "id")) :=
  resolveStrategy_reresolution "delete+insert" (some "id") (Or.inr (Or.inr (Or.inl rfl)))

/-- C10: the merge key handed to the source is the incremental key when the
supplied strategy is "delete+insert" and absent for every other strategy
string, so it is non-absent only via the delete+insert rewrite. -/
theorem mergeKey_only_from_deleteInsert (args : IngestArgs) :
    (ingestResolve args).map EngineCall.mergeKey =
      Except.ok
        (if args.incrementalStrategy = "delete+insert" then args.incrementalKey
         else none) := by
  by_cases h : args.incrementalStrategy = "delete+insert" <;>
    simp [ingestResolve, resolveStrategy, Except.map, h]

end Ingestr
